import Mathlib

/-!
Shallow embedding of the encrypted-message ingestion pipeline of
`multidevice/message.go` (whatsmeow multidevice client), together with
theorems settling the specification claims about it.

Modelling conventions:
* Go byte slices are `List Nat` (each entry is one byte value).
* A Go function that may panic (index out of range, nil dereference) is
  modelled with an explicit `crash` outcome; returning a non-nil `error`
  is an `err` outcome.
* Cryptographic operations delegated to the external libsignal session
  store (parse + decrypt of pairwise and group ciphertexts, protobuf
  unmarshalling) are modelled as oracle functions passed in as
  parameters; the control flow around them is translated from the source.
-/

set_option maxHeartbeats 1000000

/-- Result of a Go function returning `([]byte, error)`: `crash` models a
runtime panic, `err` models a non-nil error, `ok` a successful result. -/
inductive GoResult where
  | crash : GoResult
  | err : GoResult
  | ok : List Nat → GoResult
deriving DecidableEq

/-- Embedding of Go `bytes.HasSuffix(s, suffix)`: true iff `suffix` is no longer
than `s` and the last `suffix.length` bytes of `s` equal `suffix`. -/
def hasSuffix (s suffix : List Nat) : Bool :=
  decide (suffix.length ≤ s.length) && decide (s.drop (s.length - suffix.length) = suffix)

/-- Embedding of `unpadMessage` (message.go lines 80-89).  The global
`CheckPadding` flag is the `checkPadding` argument.  The Go code reads
`plaintext[len(plaintext)-1]`, which panics on an empty slice (in both the
validating and non-validating paths); with validation on it then requires the
buffer to end in `lastByte` copies of `lastByte` and otherwise returns an
error; finally it slices off the last `lastByte` bytes, which panics if
`lastByte` exceeds the length (reachable only with validation off). -/
def unpadMessage (checkPadding : Bool) (plaintext : List Nat) : GoResult :=
  match plaintext.getLast? with
  | none => .crash
  | some lastByte =>
    if checkPadding = true ∧ hasSuffix plaintext (List.replicate lastByte lastByte) = false then
      .err
    else if plaintext.length < lastByte then .crash
    else .ok (plaintext.take (plaintext.length - lastByte))

/-- Embedding of `padMessage` (message.go lines 91-99).  `padByte` is the one
random byte drawn from `crypto/rand`.  The Go code appends
`bytes.Repeat(pad[:], int(pad[0]&0xf))`, i.e. `padByte & 0xf` copies of the
RAW byte `padByte` (the byte value appended is not masked). -/
def padMessage (plaintext : List Nat) (padByte : Nat) : List Nat :=
  plaintext ++ List.replicate (padByte % 16) padByte

theorem hasSuffix_eq_true_iff (s suf : List Nat) :
    hasSuffix s suf = true ↔ suf.length ≤ s.length ∧ s.drop (s.length - suf.length) = suf := by
  simp [hasSuffix]

theorem hasSuffix_replicate_iff (l : List Nat) (v : Nat) :
    hasSuffix l (List.replicate v v) = true ↔
      v ≤ l.length ∧ ∀ x ∈ l.drop (l.length - v), x = v := by
  rw [hasSuffix_eq_true_iff]
  simp only [List.length_replicate]
  constructor
  · rintro ⟨h1, h2⟩
    refine ⟨h1, ?_⟩
    intro x hx
    rw [h2] at hx
    exact List.eq_of_mem_replicate hx
  · rintro ⟨h1, h2⟩
    refine ⟨h1, ?_⟩
    have hlen : (l.drop (l.length - v)).length = v := by
      rw [List.length_drop]
      omega
    apply List.eq_replicate_iff.mpr
    exact ⟨hlen, h2⟩

theorem getLast?_replicate_succ (a n : Nat) : (List.replicate (n + 1) a).getLast? = some a := by
  rw [List.replicate_succ', List.getLast?_concat]

/-- C3: with padding validation enabled, `unpadMessage` on a non-empty buffer
whose last byte is `v` fails with the bad-padding error exactly when the final
`v` bytes of the buffer are not all equal to `v`, and otherwise strips exactly
`v` trailing bytes and returns the remaining prefix. -/
theorem unpadMessage_validation_characterization (l : List Nat) (v : Nat)
    (hl : l.getLast? = some v) :
    (¬ (v ≤ l.length ∧ ∀ x ∈ l.drop (l.length - v), x = v) → unpadMessage true l = .err) ∧
    ((v ≤ l.length ∧ ∀ x ∈ l.drop (l.length - v), x = v) →
      unpadMessage true l = .ok (l.take (l.length - v))) := by
  constructor
  · intro h
    have hs : hasSuffix l (List.replicate v v) = false := by
      cases hfs : hasSuffix l (List.replicate v v)
      · rfl
      · exact absurd ((hasSuffix_replicate_iff l v).mp hfs) h
    unfold unpadMessage
    rw [hl]
    simp [hs]
  · intro h
    have hs : hasSuffix l (List.replicate v v) = true := (hasSuffix_replicate_iff l v).mpr h
    unfold unpadMessage
    rw [hl]
    simp [hs, Nat.not_lt.mpr h.1]

theorem unpadMessage_validation_characterization_witness :
    ([9, 2, 2] : List Nat).getLast? = some 2 ∧ unpadMessage true [9, 2, 2] = .ok [9] :=
  ⟨by decide, by
    simpa using (unpadMessage_validation_characterization [9, 2, 2] 2 (by decide)).2 (by decide)⟩

/-- C1 counterexample: the claimed round trip `unpad (pad x) = x` fails on the
code for the draw `v = 0` (nothing is appended, so `unpadMessage` misreads the
last data byte as padding) and for the raw random byte `18` (whose masked value
is `2`: two copies of `18` are appended, which the unpadder rejects).  For
`x = [1, 2]` both draws yield the bad-padding error instead of `x`. -/
theorem padMessage_roundtrip_fails_cex :
    unpadMessage true (padMessage [1, 2] 0) = .err ∧
    unpadMessage true (padMessage [1, 2] 18) = .err := by decide

/-- C1 (amended): the round trip `unpadMessage true (padMessage x b) = x` holds
exactly for draws whose random byte `b` satisfies `1 ≤ b ≤ 15` (so the raw byte
coincides with its masked value and at least one padding byte is appended). -/
theorem padMessage_unpadMessage_roundtrip_masked_draw (x : List Nat) (b : Nat)
    (h1 : 1 ≤ b) (h2 : b ≤ 15) :
    unpadMessage true (padMessage x b) = .ok x := by
  have hb : b % 16 = b := Nat.mod_eq_of_lt (by omega)
  obtain ⟨k, rfl⟩ : ∃ k, b = k + 1 := ⟨b - 1, by omega⟩
  have hlast : (padMessage x (k + 1)).getLast? = some (k + 1) := by
    rw [padMessage, hb, List.replicate_succ', ← List.append_assoc, List.getLast?_concat]
  have hsuf : hasSuffix (padMessage x (k + 1)) (List.replicate (k + 1) (k + 1)) = true := by
    rw [hasSuffix_eq_true_iff]
    constructor
    · simp [padMessage, hb]
    · rw [padMessage, hb]
      simp [List.length_append, List.length_replicate, Nat.add_sub_cancel, List.drop_left]
  have hlen : (padMessage x (k + 1)).length = x.length + (k + 1) := by
    simp [padMessage, hb]
  unfold unpadMessage
  rw [hlast]
  simp only [hsuf, Bool.true_eq_false, and_false, if_false, hlen]
  have hnl : ¬ (x.length + (k + 1) < k + 1) := by omega
  rw [if_neg hnl]
  have ht : x.length + (k + 1) - (k + 1) = x.length := by omega
  rw [ht]
  rw [padMessage, hb, List.take_left]

theorem padMessage_unpadMessage_roundtrip_masked_draw_witness :
    1 ≤ 5 ∧ 5 ≤ 15 ∧ unpadMessage true (padMessage [1, 2, 3] 5) = .ok [1, 2, 3] :=
  ⟨by decide, by decide,
    padMessage_unpadMessage_roundtrip_masked_draw [1, 2, 3] 5 (by decide) (by decide)⟩

/-- C2: for the random byte `18` the code appends `18 & 0xf = 2` copies of the
RAW byte `18`, so the appended bytes do not equal the masked value `2` and the
final byte (`18`) does not encode the padding count (`2`), contradicting the
claim that every appended byte equals the masked draw. -/
theorem padMessage_raw_byte_appended :
    padMessage [] 18 = [18, 18] ∧ (18 : Nat) % 16 = 2 ∧ (18 : Nat) ≠ 2 := by decide

/-- C4 counterexample: on the empty buffer `unpadMessage` panics (index out of
range on `plaintext[len(plaintext)-1]`); the crash outcome is not the error
outcome the claim promises. -/
theorem unpadMessage_empty_cex :
    unpadMessage true [] = .crash ∧ GoResult.crash ≠ GoResult.err := by decide

/-- C4 (amended): on the empty byte sequence `unpadMessage` panics with an
index-out-of-range, with padding validation both enabled and disabled; it
neither succeeds nor returns an ordinary error. -/
theorem unpadMessage_empty_crashes :
    unpadMessage true [] = .crash ∧ unpadMessage false [] = .crash := by decide

/-- Embedding of `waBinary.FullJID`, keeping the fields this core inspects
(`User` for receipt typing, `Server` for the group-address check). -/
structure FullJID where
  user : String
  server : String
deriving DecidableEq

/-- Embedding of `waBinary.GroupServer`. -/
def GroupServer : String := "g.us"

/-- Value stored in a node attribute map (Go `map[string]interface{}`): the
dynamic types this file stores or asserts are `FullJID`, `string` and integers;
`nil` is the zero interface value. -/
inductive AttrValue where
  | jid : FullJID → AttrValue
  | str : String → AttrValue
  | int : Int → AttrValue
  | nil : AttrValue
deriving DecidableEq

/-- Embedding of `waBinary.Node`: a tag, a string-keyed attribute map
(modelled as an association list) and a content that in Go is `interface{}`
holding either raw bytes or a list of child nodes (here flattened into the two
fields `bytes` and `children`; `GetChildren` returns `children`, and a byte
type-assertion on the content returns `bytes`). -/
inductive Node where
  | mk : String → List (String × AttrValue) → List Nat → List Node → Node

def Node.tag : Node → String
  | .mk t _ _ _ => t

def Node.attrs : Node → List (String × AttrValue)
  | .mk _ a _ _ => a

def Node.bytes : Node → List Nat
  | .mk _ _ b _ => b

def Node.children : Node → List Node
  | .mk _ _ _ c => c

/-- Lookup of `node.Attrs[k]`: `none` when the key is absent. -/
def Node.attr (n : Node) (k : String) : Option AttrValue :=
  (n.attrs.find? (fun p => p.1 == k)).map (fun p => p.2)

/-- Go `node.Attrs[k]` used as a raw value (a missing key yields the nil
interface value). -/
def Node.attrRaw (n : Node) (k : String) : AttrValue :=
  (n.attr k).getD .nil

/-- Go type assertion `node.Attrs[k].(string)`: `some` only when the key is
present and holds a string. -/
def Node.attrString (n : Node) (k : String) : Option String :=
  match n.attr k with
  | some (.str s) => some s
  | _ => none

/-- Go type assertion `node.Attrs[k].(waBinary.FullJID)`. -/
def Node.attrJID (n : Node) (k : String) : Option FullJID :=
  match n.attr k with
  | some (.jid j) => some j
  | _ => none

def digitVal? (c : Char) : Option Nat :=
  if c.isDigit then some (c.toNat - 48) else none

def parseNatDigits : List Char → Nat → Option Nat
  | [], acc => some acc
  | c :: rest, acc =>
    match digitVal? c with
    | none => none
    | some d => parseNatDigits rest (acc * 10 + d)

/-- Embedding of Go `strconv.ParseInt(s, 10, 64)`: an optional sign followed by
at least one decimal digit, rejecting values outside the int64 range. -/
def parseInt10 (s : String) : Option Int :=
  match s.data with
  | [] => none
  | c :: rest =>
    let signNeg : Bool := c = '-'
    let digits := if c = '-' ∨ c = '+' then rest else c :: rest
    match digits with
    | [] => none
    | _ :: _ =>
      match parseNatDigits digits 0 with
      | none => none
      | some n =>
        if signNeg then (if n ≤ 2 ^ 63 then some (-(n : Int)) else none)
        else (if n < 2 ^ 63 then some (n : Int) else none)

/-- Embedding of the `MessageInfo` struct (message.go lines 149-160); the
unused `Type` field is omitted.  `from_` renders the Go field `From` (`from`
is a Lean keyword). -/
structure MessageInfo where
  from_ : FullJID
  chat : Option FullJID
  id : String
  recipient : Option FullJID
  notify : String
  timestamp : Int
  category : String
deriving DecidableEq

/-- Error cases of `parseMessageInfo`, one per distinct `fmt.Errorf` site (the
two `t`-attribute failure sites share one case). -/
inductive ParseErr where
  | missingFrom
  | missingParticipant
  | missingID
  | missingTimestamp
deriving DecidableEq

/-- Embedding of `parseMessageInfo` (message.go lines 170-209). -/
def parseMessageInfo (node : Node) : Except ParseErr MessageInfo :=
  match node.attrJID "from" with
  | none => .error .missingFrom
  | some fromJ =>
    let recipient := node.attrJID "recipient"
    match (if fromJ.server = GroupServer then
             match node.attrJID "participant" with
             | none => Except.error ParseErr.missingParticipant
             | some p => Except.ok (p, some fromJ)
           else Except.ok (fromJ, (none : Option FullJID))) with
    | .error e => .error e
    | .ok (sender, chat) =>
      match node.attrString "id" with
      | none => .error .missingID
      | some idStr =>
        match node.attrString "t" with
        | none => .error .missingTimestamp
        | some ts =>
          match parseInt10 ts with
          | none => .error .missingTimestamp
          | some n =>
            .ok { from_ := sender, chat := chat, id := idStr, recipient := recipient,
                  notify := (node.attrString "notify").getD "",
                  timestamp := n, category := (node.attrString "category").getD "" }

/-- Direct-addressed node whose `id` attribute is the empty string. -/
def c6Node : Node :=
  Node.mk "message"
    [("from", .jid ⟨"123", "s.whatsapp.net"⟩), ("id", .str ""), ("t", .str "5")] [] []

/-- C6 counterexample: `parseMessageInfo` only type-asserts the `id` attribute
to `string`; it never checks non-emptiness, so a message with `id = ""`
parses successfully where the claim (following the spec, which demands a
non-empty id) requires a malformed-message error. -/
theorem parseMessageInfo_empty_id_cex :
    parseMessageInfo c6Node =
      .ok ⟨⟨"123", "s.whatsapp.net"⟩, none, "", none, "", 5, ""⟩ := by rfl

/-- C6 (amended): message-info extraction requires a `from` attribute holding a
JID and fails otherwise; for a group-addressed `from` it requires a JID-valued
`participant` attribute (used as the sender, with `chat` set to the group
address) and fails when it is absent or invalid; for a direct `from` the sender
is the `from` attribute and `chat` is unset; the `id` attribute must be present
and string-typed (emptiness is NOT checked) and the `t` attribute must be a
string parsing as a base-10 64-bit integer, each failing with the corresponding
malformed-message error otherwise. -/
theorem parseMessageInfo_characterization (n : Node) :
    (n.attrJID "from" = none → parseMessageInfo n = .error .missingFrom) ∧
    (∀ fJ, n.attrJID "from" = some fJ → fJ.server = GroupServer →
      n.attrJID "participant" = none → parseMessageInfo n = .error .missingParticipant) ∧
    (∀ fJ, n.attrJID "from" = some fJ →
      (fJ.server = GroupServer → (n.attrJID "participant").isSome) →
      n.attrString "id" = none → parseMessageInfo n = .error .missingID) ∧
    (∀ fJ idS, n.attrJID "from" = some fJ →
      (fJ.server = GroupServer → (n.attrJID "participant").isSome) →
      n.attrString "id" = some idS →
      (n.attrString "t" = none ∨ (∃ ts, n.attrString "t" = some ts ∧ parseInt10 ts = none)) →
      parseMessageInfo n = .error .missingTimestamp) ∧
    (∀ fJ p idS ts t, n.attrJID "from" = some fJ → fJ.server = GroupServer →
      n.attrJID "participant" = some p → n.attrString "id" = some idS →
      n.attrString "t" = some ts → parseInt10 ts = some t →
      parseMessageInfo n = .ok ⟨p, some fJ, idS, n.attrJID "recipient",
        (n.attrString "notify").getD "", t, (n.attrString "category").getD ""⟩) ∧
    (∀ fJ idS ts t, n.attrJID "from" = some fJ → ¬ (fJ.server = GroupServer) →
      n.attrString "id" = some idS → n.attrString "t" = some ts → parseInt10 ts = some t →
      parseMessageInfo n = .ok ⟨fJ, none, idS, n.attrJID "recipient",
        (n.attrString "notify").getD "", t, (n.attrString "category").getD ""⟩) := by
  refine ⟨?_, ?_, ?_, ?_, ?_, ?_⟩
  · intro h
    unfold parseMessageInfo
    rw [h]
  · intro fJ hf hg hp
    unfold parseMessageInfo
    rw [hf]
    simp [hg, hp]
  · intro fJ hf hps hid
    unfold parseMessageInfo
    rw [hf]
    by_cases hg : fJ.server = GroupServer
    · obtain ⟨p, hp⟩ := Option.isSome_iff_exists.mp (hps hg)
      simp [hg, hp, hid]
    · simp [hg, hid]
  · intro fJ idS hf hps hid ht
    unfold parseMessageInfo
    rw [hf]
    rcases ht with ht | ⟨ts, hts, htp⟩
    · by_cases hg : fJ.server = GroupServer
      · obtain ⟨p, hp⟩ := Option.isSome_iff_exists.mp (hps hg)
        simp [hg, hp, hid, ht]
      · simp [hg, hid, ht]
    · by_cases hg : fJ.server = GroupServer
      · obtain ⟨p, hp⟩ := Option.isSome_iff_exists.mp (hps hg)
        simp [hg, hp, hid, hts, htp]
      · simp [hg, hid, hts, htp]
  · intro fJ p idS ts t hf hg hp hid hts htp
    unfold parseMessageInfo
    rw [hf]
    simp [hg, hp, hid, hts, htp]
  · intro fJ idS ts t hf hg hid hts htp
    unfold parseMessageInfo
    rw [hf]
    simp [hg, hid, hts, htp]

/-- Group-addressed node with a participant attribute. -/
def c6GroupNode : Node :=
  Node.mk "message"
    [("from", .jid ⟨"g1", "g.us"⟩), ("participant", .jid ⟨"55", "s.whatsapp.net"⟩),
     ("id", .str "ABC"), ("t", .str "17")] [] []

theorem parseMessageInfo_characterization_witness :
    c6GroupNode.attrJID "from" = some ⟨"g1", "g.us"⟩ ∧
    parseMessageInfo c6GroupNode =
      .ok ⟨⟨"55", "s.whatsapp.net"⟩, some ⟨"g1", "g.us"⟩, "ABC", none, "", 17, ""⟩ :=
  ⟨by rfl, by
    have h := (parseMessageInfo_characterization c6GroupNode).2.2.2.2.1
      ⟨"g1", "g.us"⟩ ⟨"55", "s.whatsapp.net"⟩ "ABC" "17" 17
      (by rfl) rfl (by rfl) (by rfl) (by rfl) (by rfl)
    exact h⟩

/-- Embedding of the slice of `waProto.Message` that `handleDecryptedMessage`
inspects: an optional sender-key-distribution sub-payload (its serialized bytes)
and an optional protocol-control sub-payload. -/
structure ProtocolMessage where
  historySyncNotification : Option (List Nat)
deriving DecidableEq

structure Msg where
  senderKeyDistributionMessage : Option (List Nat)
  protocolMessage : Option ProtocolMessage
deriving DecidableEq

/-- Observable effects of processing one inbound unit, in program order:
decrypt attempts against the session store, dispatches to the event sink,
sender-key-distribution processing, history-sync handling, protocol-message
receipts, retry receipts (with the sent payload), delivery receipts and acks. -/
inductive Effect where
  | decryptAttempt : Effect
  | dispatch : Msg → Effect
  | skdProcessed : FullJID → FullJID → Effect
  | histSyncHandled : Effect
  | protocolReceipt : String → String → Effect
  | retrySent : Node → Effect
  | receiptSent : Effect
  | ackSent : Effect

/-- Embedding of a libsignal prekey record as far as this core observes it (it
is only passed to `preKeyToNode`). -/
structure PreKey where
  keyID : Nat
  pub : List Nat
deriving DecidableEq

/-- Embedding of `ecc.DjbType`, the curve-type marker byte. -/
def djbType : Nat := 5

/-- Local session/device state read by `sendRetryReceipt`.  `freshPreKey`
models `cli.Session.GetOrGenPreKeys(1)[0]` (the generator itself lives outside
this file; per the spec it returns the requested number of freshly generated
one-time prekeys, so the single fresh key is modelled as a field) and
`accountMarshal` models the result of `proto.Marshal(cli.Session.Account)`. -/
structure SessionRec where
  registrationID : Nat
  identityPub : List Nat
  signedPreKey : PreKey
  freshPreKey : PreKey
  accountMarshal : Except Unit (List Nat)

/-- Oracles for the operations `decryptMessages` delegates to the external
libsignal session store and to protobuf decoding: `dmDecrypt src content
isPreKey` is the combined parse + decrypt of a pairwise ciphertext (before
unpadding), `groupDecrypt src chat content` the same for a sender-key
ciphertext, and `unmarshal` is `proto.Unmarshal` of a decrypted payload. -/
structure CipherOracles where
  dmDecrypt : FullJID → List Nat → Bool → Except Unit (List Nat)
  groupDecrypt : FullJID → FullJID → List Nat → Except Unit (List Nat)
  unmarshal : List Nat → Option Msg

/-- Embedding of `decryptDM` (message.go lines 33-59): parse and decrypt via
the session cipher (oracle), then `unpadMessage` with the global flag. -/
def decryptDM (o : CipherOracles) (cp : Bool) (src : FullJID) (content : List Nat)
    (isPreKey : Bool) : GoResult :=
  match o.dmDecrypt src content isPreKey with
  | .error _ => .err
  | .ok plaintext => unpadMessage cp plaintext

/-- Embedding of `decryptGroupMsg` (message.go lines 61-76). -/
def decryptGroupMsg (o : CipherOracles) (cp : Bool) (src chat : FullJID)
    (content : List Nat) : GoResult :=
  match o.groupDecrypt src chat content with
  | .error _ => .err
  | .ok plaintext => unpadMessage cp plaintext

/-- Embedding of `sendProtocolMessageReceipt` (message.go lines 287-303): no
receipt is sent when the id is empty. -/
def sendProtocolMessageReceipt (id msgType : String) : List Effect :=
  if id = "" then [] else [.protocolReceipt id msgType]

/-- Embedding of `handleProtocolMessage` (message.go lines 260-269). -/
def handleProtocolMessage (info : MessageInfo) (m : Msg) : List Effect :=
  (match m.protocolMessage with
   | some pm =>
     match pm.historySyncNotification with
     | some _ => Effect.histSyncHandled :: sendProtocolMessageReceipt info.id "hist_sync"
     | none => []
   | none => []) ++
  (if info.category = "peer" then sendProtocolMessageReceipt info.id "peer_msg" else [])

/-- Embedding of `handleDecryptedMessage` (message.go lines 276-285).  When the
payload carries a sender-key-distribution sub-payload the code dereferences
`*info.Chat` unconditionally; with `Chat = nil` this is a nil-pointer panic,
modelled as `none` (no dispatch happens).  Otherwise the sender-key
distribution is processed, protocol messages handled, and the message is
always dispatched to the event sink. -/
def handleDecryptedMessage (info : MessageInfo) (m : Msg) : Option (List Effect) :=
  let protoActs := if m.protocolMessage.isSome then handleProtocolMessage info m else []
  match m.senderKeyDistributionMessage with
  | some _ =>
    match info.chat with
    | none => none
    | some chat => some (Effect.skdProcessed chat info.from_ :: (protoActs ++ [Effect.dispatch m]))
  | none => some (protoActs ++ [Effect.dispatch m])

/-- Message id a node is retried under: `id, _ := node.Attrs["id"].(string)`
(the zero value `""` when absent or not a string). -/
def idOf (node : Node) : String :=
  (node.attrString "id").getD ""

/-- Increment of the shared retry-counter map at one id. -/
def bump (st : String → Nat) (id : String) : String → Nat :=
  fun x => if x = id then st x + 1 else st x

/-- Attributes of the retry receipt (message.go lines 364-374): `to` echoes the
raw `from` attribute, and `recipient`/`participant` are copied when present. -/
def retryAttrs (node : Node) (id : String) : List (String × AttrValue) :=
  [("id", .str id), ("type", .str "retry"), ("to", node.attrRaw "from")] ++
  (match node.attr "recipient" with | some v => [("recipient", v)] | none => []) ++
  (match node.attr "participant" with | some v => [("participant", v)] | none => [])

/-- The `retry` and `registration` children of every retry receipt
(message.go lines 375-387); the registration id is serialized as 4 bytes
big-endian with the low 16 bits holding the value. -/
def retryBaseChildren (s : SessionRec) (node : Node) (id : String) (retryCount : Nat) :
    List Node :=
  [Node.mk "retry"
      [("count", .int retryCount), ("id", .str id), ("t", node.attrRaw "t"), ("v", .int 1)]
      [] [],
   Node.mk "registration" [] [0, 0, s.registrationID / 256 % 256, s.registrationID % 256] []]

/-- The `keys` child attached from the second retry on (message.go lines
395-404): curve-type marker, identity key, the one fresh one-time prekey, the
signed prekey and the serialized device identity. -/
def keysNode (s : SessionRec) (pkNode : PreKey → Node) (deviceIdentity : List Nat) : Node :=
  Node.mk "keys" [] []
    [Node.mk "type" [] [djbType] [],
     Node.mk "identity" [] s.identityPub [],
     pkNode s.freshPreKey,
     pkNode s.signedPreKey,
     Node.mk "device-identity" [] deviceIdentity []]

/-- Embedding of `sendRetryReceipt` (message.go lines 354-410): atomically
increment the retry counter for the node's id, build the receipt payload, and
— when the incremented count exceeds 1 — attach the key bundle, aborting the
send (but keeping the increment) if the device identity fails to serialize.
Returns the updated counter map and the payload actually sent (if any).
`pkNode` stands for `preKeyToNode`, defined outside this file. -/
def sendRetryReceipt (s : SessionRec) (pkNode : PreKey → Node) (st : String → Nat)
    (node : Node) : (String → Nat) × Option Node :=
  let id := idOf node
  let st2 := bump st id
  let retryCount := st id + 1
  if retryCount > 1 then
    match s.accountMarshal with
    | .error _ => (st2, none)
    | .ok deviceIdentity =>
      (st2, some (Node.mk "receipt" (retryAttrs node id) []
        (retryBaseChildren s node id retryCount ++ [keysNode s pkNode deviceIdentity])))
  else
    (st2, some (Node.mk "receipt" (retryAttrs node id) [] (retryBaseChildren s node id retryCount)))

/-- The per-child loop of `decryptMessages` (message.go lines 109-142).  It
walks the children in order carrying the `handled` flag; non-`enc` children and
children without a string `type` attribute are skipped; `pkmsg`/`msg` go to the
pairwise decryptor and `skmsg` (only when `info.Chat` is set) to the group
decryptor, any other type is logged and skipped; a decrypt (or unpad) error
stops the walk with the abort flag set (the caller then sends one retry and
returns); a successful decrypt is unmarshalled (skipping the child on failure)
and handed to `handleDecryptedMessage`, setting `handled`.  Returns `none` when
a Go panic occurs, otherwise `(effects, handled, aborted)`. -/
def decryptLoop (o : CipherOracles) (cp : Bool) (info : MessageInfo) :
    List Node → Bool → Option (List Effect × Bool × Bool)
  | [], handled => some ([], handled, false)
  | child :: rest, handled =>
    if child.tag ≠ "enc" then decryptLoop o cp info rest handled
    else
      match child.attrString "type" with
      | none => decryptLoop o cp info rest handled
      | some encType =>
        let res : Option GoResult :=
          if encType = "pkmsg" ∨ encType = "msg" then
            some (decryptDM o cp info.from_ child.bytes (decide (encType = "pkmsg")))
          else
            match info.chat with
            | some chat =>
              if encType = "skmsg" then
                some (decryptGroupMsg o cp info.from_ chat child.bytes)
              else none
            | none => none
        match res with
        | none => decryptLoop o cp info rest handled
        | some .crash => none
        | some .err => some ([Effect.decryptAttempt], handled, true)
        | some (.ok decrypted) =>
          match o.unmarshal decrypted with
          | none =>
            match decryptLoop o cp info rest handled with
            | none => none
            | some (acts, h, ab) => some (Effect.decryptAttempt :: acts, h, ab)
          | some m =>
            match handleDecryptedMessage info m with
            | none => none
            | some hActs =>
              match decryptLoop o cp info rest true with
              | none => none
              | some (acts, h, ab) =>
                some (Effect.decryptAttempt :: (hActs ++ acts), h, ab)

/-- Embedding of `decryptMessages` (message.go lines 101-147): when every child
is tagged `unavailable` (including the no-children case), send one retry and
return without any decrypt attempt; otherwise run the loop; on abort send one
retry; otherwise, if anything was handled, send the delivery receipt and the
ack.  Returns the updated retry-counter map and the effect trace (`none` for a
Go panic). -/
def decryptMessages (o : CipherOracles) (s : SessionRec) (pkNode : PreKey → Node) (cp : Bool)
    (st : String → Nat) (info : MessageInfo) (node : Node) :
    Option ((String → Nat) × List Effect) :=
  if (node.children.filter fun c => c.tag == "unavailable").length = node.children.length then
    match sendRetryReceipt s pkNode st node with
    | (st2, some p) => some (st2, [Effect.retrySent p])
    | (st2, none) => some (st2, [])
  else
    match decryptLoop o cp info node.children false with
    | none => none
    | some (acts, handled, aborted) =>
      if aborted then
        match sendRetryReceipt s pkNode st node with
        | (st2, some p) => some (st2, acts ++ [Effect.retrySent p])
        | (st2, none) => some (st2, acts)
      else
        some (st, acts ++ (if handled then [Effect.receiptSent, Effect.ackSent] else []))

def isDispatch : Effect → Bool
  | .dispatch _ => true
  | _ => false

def isRetrySent : Effect → Bool
  | .retrySent _ => true
  | _ => false

def isDecryptAttempt : Effect → Bool
  | .decryptAttempt => true
  | _ => false

def isReceiptSent : Effect → Bool
  | .receiptSent => true
  | _ => false

def isAckSent : Effect → Bool
  | .ackSent => true
  | _ => false

def countDispatches (tr : List Effect) : Nat := (tr.filter isDispatch).length

def countRetries (tr : List Effect) : Nat := (tr.filter isRetrySent).length

def countDecryptAttempts (tr : List Effect) : Nat := (tr.filter isDecryptAttempt).length

def countReceipts (tr : List Effect) : Nat := (tr.filter isReceiptSent).length

def countAcks (tr : List Effect) : Nat := (tr.filter isAckSent).length

/-- Effect trace of a (non-panicking) `decryptMessages` run. -/
def traceOf : Option ((String → Nat) × List Effect) → List Effect
  | some (_, tr) => tr
  | none => []

/-- Retry-counter map after a (non-panicking) `decryptMessages` run. -/
def stateOf : Option ((String → Nat) × List Effect) → String → Nat
  | some (st, _), x => st x
  | none, _ => 0

/-- C10: when a successfully decrypted message carries a
sender-key-distribution sub-payload and the chat is direct (`info.Chat` is
nil), `handleDecryptedMessage` dereferences `*info.Chat` unconditionally and
panics with a nil-pointer dereference; the message is not forwarded to the
event sink (the crash outcome carries no effect trace at all). -/
theorem handleDecryptedMessage_nil_chat_crash (info : MessageInfo) (m : Msg)
    (skd : List Nat) (hchat : info.chat = none)
    (hskd : m.senderKeyDistributionMessage = some skd) :
    handleDecryptedMessage info m = none := by
  simp only [handleDecryptedMessage, hskd, hchat]

theorem handleDecryptedMessage_nil_chat_crash_witness :
    (⟨⟨"1", "s.whatsapp.net"⟩, none, "X", none, "", 0, ""⟩ : MessageInfo).chat = none ∧
    handleDecryptedMessage ⟨⟨"1", "s.whatsapp.net"⟩, none, "X", none, "", 0, ""⟩
      ⟨some [1], none⟩ = none :=
  ⟨rfl, handleDecryptedMessage_nil_chat_crash _ _ [1] rfl rfl⟩

/-- C9: a ciphertext-bearing (`enc`) sub-unit whose encryption-type tag is none
of `pkmsg`, `msg`, `skmsg` is skipped: the loop continues with the remaining
sub-units exactly as if the sub-unit were absent — no abort, no retry, no
decrypt attempt from it. -/
theorem decryptLoop_unknown_enc_type_skipped (o : CipherOracles) (cp : Bool)
    (info : MessageInfo) (c : Node) (rest : List Node) (handled : Bool) (t : String)
    (htag : c.tag = "enc") (htype : c.attrString "type" = some t)
    (h1 : t ≠ "pkmsg") (h2 : t ≠ "msg") (h3 : t ≠ "skmsg") :
    decryptLoop o cp info (c :: rest) handled = decryptLoop o cp info rest handled := by
  cases hc : info.chat with
  | none => simp [decryptLoop, htag, htype, h1, h2, h3, hc]
  | some chat => simp [decryptLoop, htag, htype, h1, h2, h3, hc]

def c9Child : Node := Node.mk "enc" [("type", .str "frskmsg")] [9] []

def c9Oracles : CipherOracles :=
  ⟨fun _ _ _ => .error (), fun _ _ _ => .error (), fun _ => none⟩

def c9Info : MessageInfo := ⟨⟨"1", "s.whatsapp.net"⟩, none, "X", none, "", 0, ""⟩

theorem decryptLoop_unknown_enc_type_skipped_witness :
    c9Child.tag = "enc" ∧
    decryptLoop c9Oracles true c9Info [c9Child] false =
      decryptLoop c9Oracles true c9Info [] false :=
  ⟨rfl, decryptLoop_unknown_enc_type_skipped c9Oracles true c9Info c9Child [] false
    "frskmsg" rfl rfl (by decide) (by decide) (by decide)⟩

theorem sendRetryReceipt_marshal_ok (s : SessionRec) (pkNode : PreKey → Node)
    (st : String → Nat) (node : Node) (d : List Nat) (hm : s.accountMarshal = .ok d) :
    (sendRetryReceipt s pkNode st node).1 = bump st (idOf node) ∧
    ∃ p, (sendRetryReceipt s pkNode st node).2 = some p := by
  unfold sendRetryReceipt
  by_cases h : st (idOf node) + 1 > 1
  · simp [h, hm]
  · simp [h]

/-- C7: the first retry trigger for an id (counter previously 0) sends a retry
receipt with no `keys` child; every trigger whose incremented retry count
exceeds 1 sends a retry receipt with exactly one `keys` child containing the
curve-type marker byte, the local identity public key, the one freshly
generated one-time prekey, the signed prekey, and the serialized
device-identity record (provided that record serializes). -/
theorem sendRetryReceipt_escalation (s : SessionRec) (pkNode : PreKey → Node)
    (st : String → Nat) (node : Node) (d : List Nat) :
    (st (idOf node) = 0 →
      sendRetryReceipt s pkNode st node =
        (bump st (idOf node),
         some (Node.mk "receipt" (retryAttrs node (idOf node)) []
           (retryBaseChildren s node (idOf node) 1))) ∧
      (Node.mk "receipt" (retryAttrs node (idOf node)) []
          (retryBaseChildren s node (idOf node) 1)).children.filter
        (fun c => c.tag == "keys") = []) ∧
    (st (idOf node) ≥ 1 → s.accountMarshal = .ok d →
      sendRetryReceipt s pkNode st node =
        (bump st (idOf node),
         some (Node.mk "receipt" (retryAttrs node (idOf node)) []
           (retryBaseChildren s node (idOf node) (st (idOf node) + 1) ++
            [keysNode s pkNode d]))) ∧
      (Node.mk "receipt" (retryAttrs node (idOf node)) []
          (retryBaseChildren s node (idOf node) (st (idOf node) + 1) ++
           [keysNode s pkNode d])).children.filter
        (fun c => c.tag == "keys") =
        [Node.mk "keys" [] []
          [Node.mk "type" [] [djbType] [],
           Node.mk "identity" [] s.identityPub [],
           pkNode s.freshPreKey,
           pkNode s.signedPreKey,
           Node.mk "device-identity" [] d []]]) := by
  constructor
  · intro h0
    constructor
    · unfold sendRetryReceipt
      have hgt : ¬ (st (idOf node) + 1 > 1) := by omega
      simp only [hgt, if_false]
      rw [h0]
    · rfl
  · intro h1 hm
    constructor
    · unfold sendRetryReceipt
      have hgt : st (idOf node) + 1 > 1 := by omega
      simp only [hgt, if_true, hm]
    · rfl

def c7Node : Node :=
  Node.mk "message"
    [("id", .str "M1"), ("from", .jid ⟨"9", "s.whatsapp.net"⟩), ("t", .str "3")] [] []

def c7Session : SessionRec := ⟨513, [1, 2], ⟨10, [3]⟩, ⟨11, [4]⟩, .ok [7, 7]⟩

def c7PkNode : PreKey → Node := fun k => Node.mk "key" [] (k.keyID :: k.pub) []

theorem sendRetryReceipt_escalation_witness :
    (fun _ : String => 0) (idOf c7Node) = 0 ∧ (fun _ : String => 1) (idOf c7Node) ≥ 1 ∧
    sendRetryReceipt c7Session c7PkNode (fun _ => 0) c7Node =
      (bump (fun _ => 0) (idOf c7Node),
       some (Node.mk "receipt" (retryAttrs c7Node (idOf c7Node)) []
         (retryBaseChildren c7Session c7Node (idOf c7Node) 1))) ∧
    sendRetryReceipt c7Session c7PkNode (fun _ => 1) c7Node =
      (bump (fun _ => 1) (idOf c7Node),
       some (Node.mk "receipt" (retryAttrs c7Node (idOf c7Node)) []
         (retryBaseChildren c7Session c7Node (idOf c7Node) 2 ++
          [keysNode c7Session c7PkNode [7, 7]]))) :=
  ⟨rfl, by decide,
   ((sendRetryReceipt_escalation c7Session c7PkNode (fun _ => 0) c7Node [7, 7]).1 rfl).1,
   ((sendRetryReceipt_escalation c7Session c7PkNode (fun _ => 1) c7Node [7, 7]).2
     (by decide) rfl).1⟩

/-- C8: for an inbound unit all of whose children are tagged `unavailable`,
processing performs zero decrypt attempts, emits exactly one retry, and
increments the retry counter for the unit's id by exactly one (leaving all
other ids unchanged); the device-identity record is assumed to serialize so
the composed retry is actually sent. -/
theorem decryptMessages_all_unavailable (o : CipherOracles) (s : SessionRec)
    (pkNode : PreKey → Node) (cp : Bool) (st : String → Nat) (info : MessageInfo)
    (node : Node) (d : List Nat)
    (hun : ∀ c ∈ node.children, c.tag = "unavailable")
    (hm : s.accountMarshal = .ok d) :
    countDecryptAttempts (traceOf (decryptMessages o s pkNode cp st info node)) = 0 ∧
    countRetries (traceOf (decryptMessages o s pkNode cp st info node)) = 1 ∧
    stateOf (decryptMessages o s pkNode cp st info node) (idOf node) = st (idOf node) + 1 ∧
    (∀ x, x ≠ idOf node → stateOf (decryptMessages o s pkNode cp st info node) x = st x) := by
  obtain ⟨h1, p, h2⟩ := sendRetryReceipt_marshal_ok s pkNode st node d hm
  have hsr : sendRetryReceipt s pkNode st node = (bump st (idOf node), some p) := by
    cases hp : sendRetryReceipt s pkNode st node with
    | mk a b =>
      rw [hp] at h1 h2
      simp only at h1 h2
      rw [h1, h2]
  have hfilter : (node.children.filter fun c => c.tag == "unavailable") = node.children := by
    apply List.filter_eq_self.mpr
    intro c hc
    simp [hun c hc]
  unfold decryptMessages
  rw [hfilter, if_pos rfl, hsr]
  refine ⟨?_, ?_, ?_, ?_⟩
  · simp [traceOf, countDecryptAttempts, isDecryptAttempt]
  · simp [traceOf, countRetries, isRetrySent]
  · simp [stateOf, bump]
  · intro x hx
    simp [stateOf, bump, hx]

def c8Node : Node :=
  Node.mk "message" [("id", .str "R1"), ("from", .jid ⟨"9", "s.whatsapp.net"⟩)] []
    [Node.mk "unavailable" [] [] []]

theorem decryptMessages_all_unavailable_witness :
    (∀ c ∈ c8Node.children, c.tag = "unavailable") ∧
    countDecryptAttempts
      (traceOf (decryptMessages c9Oracles c7Session c7PkNode true (fun _ => 0) c9Info c8Node))
      = 0 ∧
    countRetries
      (traceOf (decryptMessages c9Oracles c7Session c7PkNode true (fun _ => 0) c9Info c8Node))
      = 1 ∧
    stateOf (decryptMessages c9Oracles c7Session c7PkNode true (fun _ => 0) c9Info c8Node)
      (idOf c8Node) = 1 :=
  ⟨by decide,
   (decryptMessages_all_unavailable c9Oracles c7Session c7PkNode true (fun _ => 0) c9Info
     c8Node [7, 7] (by decide) rfl).1,
   (decryptMessages_all_unavailable c9Oracles c7Session c7PkNode true (fun _ => 0) c9Info
     c8Node [7, 7] (by decide) rfl).2.1,
   (decryptMessages_all_unavailable c9Oracles c7Session c7PkNode true (fun _ => 0) c9Info
     c8Node [7, 7] (by decide) rfl).2.2.1⟩

theorem handleProtocolMessage_shapes (info : MessageInfo) (m : Msg) :
    ∀ a ∈ handleProtocolMessage info m,
      isDispatch a = false ∧ isRetrySent a = false ∧ isReceiptSent a = false ∧
      isAckSent a = false ∧ isDecryptAttempt a = false := by
  intro a ha
  unfold handleProtocolMessage sendProtocolMessageReceipt at ha
  rw [List.mem_append] at ha
  rcases ha with ha | ha
  · split at ha
    · split at ha
      · rw [List.mem_cons] at ha
        rcases ha with rfl | ha
        · exact ⟨rfl, rfl, rfl, rfl, rfl⟩
        · split at ha
          · simp at ha
          · rw [List.mem_singleton] at ha
            subst ha
            exact ⟨rfl, rfl, rfl, rfl, rfl⟩
      · simp at ha
    · simp at ha
  · split at ha
    · split at ha
      · simp at ha
      · rw [List.mem_singleton] at ha
        subst ha
        exact ⟨rfl, rfl, rfl, rfl, rfl⟩
    · simp at ha

theorem handleDecryptedMessage_trace (info : MessageInfo) (m : Msg) (acts : List Effect)
    (h : handleDecryptedMessage info m = some acts) :
    countDispatches acts = 1 ∧ countRetries acts = 0 ∧ countReceipts acts = 0 ∧
    countAcks acts = 0 ∧ countDecryptAttempts acts = 0 := by
  have hp : ∀ a ∈ (if m.protocolMessage.isSome then handleProtocolMessage info m else []),
      isDispatch a = false ∧ isRetrySent a = false ∧ isReceiptSent a = false ∧
      isAckSent a = false ∧ isDecryptAttempt a = false := by
    intro a ha
    split at ha
    · exact handleProtocolMessage_shapes info m a ha
    · simp at ha
  have hf1 : (if m.protocolMessage.isSome then handleProtocolMessage info m else []).filter
      isDispatch = [] :=
    List.filter_eq_nil_iff.mpr (fun a ha => by simp [(hp a ha).1])
  have hf2 : (if m.protocolMessage.isSome then handleProtocolMessage info m else []).filter
      isRetrySent = [] :=
    List.filter_eq_nil_iff.mpr (fun a ha => by simp [(hp a ha).2.1])
  have hf3 : (if m.protocolMessage.isSome then handleProtocolMessage info m else []).filter
      isReceiptSent = [] :=
    List.filter_eq_nil_iff.mpr (fun a ha => by simp [(hp a ha).2.2.1])
  have hf4 : (if m.protocolMessage.isSome then handleProtocolMessage info m else []).filter
      isAckSent = [] :=
    List.filter_eq_nil_iff.mpr (fun a ha => by simp [(hp a ha).2.2.2.1])
  have hf5 : (if m.protocolMessage.isSome then handleProtocolMessage info m else []).filter
      isDecryptAttempt = [] :=
    List.filter_eq_nil_iff.mpr (fun a ha => by simp [(hp a ha).2.2.2.2])
  simp only [handleDecryptedMessage] at h
  rcases hskd : m.senderKeyDistributionMessage with _ | skd <;> rw [hskd] at h
  · rw [Option.some.injEq] at h
    subst h
    refine ⟨?_, ?_, ?_, ?_, ?_⟩ <;>
      simp [countDispatches, countRetries, countReceipts, countAcks, countDecryptAttempts,
        List.filter_append, hf1, hf2, hf3, hf4, hf5, isDispatch, isRetrySent, isReceiptSent,
        isAckSent, isDecryptAttempt]
  · rcases hchat : info.chat with _ | chat <;> rw [hchat] at h
    · exact absurd h (by simp)
    · rw [Option.some.injEq] at h
      subst h
      refine ⟨?_, ?_, ?_, ?_, ?_⟩ <;>
        simp [countDispatches, countRetries, countReceipts, countAcks, countDecryptAttempts,
          List.filter_append, hf1, hf2, hf3, hf4, hf5, isDispatch, isRetrySent, isReceiptSent,
          isAckSent, isDecryptAttempt]

theorem decryptLoop_msg_failure (o : CipherOracles) (cp : Bool) (info : MessageInfo)
    (c : Node) (rest : List Node) (handled : Bool)
    (htag : c.tag = "enc") (htype : c.attrString "type" = some "msg")
    (hdec : o.dmDecrypt info.from_ c.bytes false = .error ()) :
    decryptLoop o cp info (c :: rest) handled = some ([Effect.decryptAttempt], handled, true) := by
  have hd : decryptDM o cp info.from_ c.bytes false = .err := by
    simp [decryptDM, hdec]
  simp only [decryptLoop, htag, htype]
  simp [hd]

theorem decryptLoop_msg_success (o : CipherOracles) (cp : Bool) (info : MessageInfo)
    (c : Node) (rest : List Node) (handled : Bool) (p u : List Nat) (m : Msg)
    (acts : List Effect)
    (htag : c.tag = "enc") (htype : c.attrString "type" = some "msg")
    (hdec : o.dmDecrypt info.from_ c.bytes false = .ok p)
    (hunpad : unpadMessage cp p = .ok u)
    (hum : o.unmarshal u = some m)
    (hh : handleDecryptedMessage info m = some acts) :
    decryptLoop o cp info (c :: rest) handled =
      (decryptLoop o cp info rest true).map
        (fun r => (Effect.decryptAttempt :: (acts ++ r.1), r.2)) := by
  have hd : decryptDM o cp info.from_ c.bytes false = .ok u := by
    simp [decryptDM, hdec, hunpad]
  simp only [decryptLoop, htag, htype]
  cases hrec : decryptLoop o cp info rest true with
  | none => simp [hd, hum, hh, hrec]
  | some r =>
    cases r with
    | mk racts rflags => simp [hd, hum, hh, hrec]

/-- C5 (amended): for a unit with three `enc` sub-units where the first
decrypts, unmarshals and dispatches successfully and the second fails
decryption, the dispatcher is invoked for exactly ONE sub-unit — successful
sub-units are dispatched as soon as they decrypt, the abort only stops the
sub-units from the failure onward — exactly one retry is emitted for the unit
(whose counter is incremented once), and no delivery receipt or ack is sent. -/
theorem decryptMessages_abort_after_success (o : CipherOracles) (s : SessionRec)
    (pkNode : PreKey → Node) (cp : Bool) (st : String → Nat) (info : MessageInfo)
    (node : Node) (c1 c2 c3 : Node) (p1 u1 : List Nat) (m1 : Msg) (a1 : List Effect)
    (d : List Nat)
    (hch : node.children = [c1, c2, c3])
    (h1tag : c1.tag = "enc") (h1type : c1.attrString "type" = some "msg")
    (h1dec : o.dmDecrypt info.from_ c1.bytes false = .ok p1)
    (h1unpad : unpadMessage cp p1 = .ok u1)
    (h1um : o.unmarshal u1 = some m1)
    (h1h : handleDecryptedMessage info m1 = some a1)
    (h2tag : c2.tag = "enc") (h2type : c2.attrString "type" = some "msg")
    (h2dec : o.dmDecrypt info.from_ c2.bytes false = .error ())
    (hm : s.accountMarshal = .ok d) :
    countDispatches (traceOf (decryptMessages o s pkNode cp st info node)) = 1 ∧
    countRetries (traceOf (decryptMessages o s pkNode cp st info node)) = 1 ∧
    countReceipts (traceOf (decryptMessages o s pkNode cp st info node)) = 0 ∧
    countAcks (traceOf (decryptMessages o s pkNode cp st info node)) = 0 ∧
    stateOf (decryptMessages o s pkNode cp st info node) (idOf node) = st (idOf node) + 1 := by
  obtain ⟨hh1, hh2, hh3, hh4, hh5⟩ := handleDecryptedMessage_trace info m1 a1 h1h
  obtain ⟨hs1, p, hs2⟩ := sendRetryReceipt_marshal_ok s pkNode st node d hm
  have hsr : sendRetryReceipt s pkNode st node = (bump st (idOf node), some p) := by
    cases hp : sendRetryReceipt s pkNode st node with
    | mk a b =>
      rw [hp] at hs1 hs2
      simp only at hs1 hs2
      rw [hs1, hs2]
  have hloop : decryptLoop o cp info [c1, c2, c3] false =
      some (Effect.decryptAttempt :: (a1 ++ [Effect.decryptAttempt]), true, true) := by
    rw [decryptLoop_msg_success o cp info c1 [c2, c3] false p1 u1 m1 a1 h1tag h1type h1dec
      h1unpad h1um h1h]
    rw [decryptLoop_msg_failure o cp info c2 [c3] true h2tag h2type h2dec]
    rfl
  have hnot : ¬ ((node.children.filter fun c => c.tag == "unavailable").length =
      node.children.length) := by
    intro hcon
    have hsub : List.Sublist (node.children.filter fun c => c.tag == "unavailable")
        node.children :=
      List.filter_sublist node.children
    have heq := hsub.eq_of_length hcon
    have hall := List.filter_eq_self.mp heq
    have hc1 : c1 ∈ node.children := by
      rw [hch]
      exact List.mem_cons_self _ _
    have hbad := hall c1 hc1
    rw [h1tag] at hbad
    simp at hbad
  unfold decryptMessages
  rw [if_neg hnot, hch, hloop, hsr]
  refine ⟨?_, ?_, ?_, ?_, ?_⟩
  · simpa [traceOf, countDispatches, List.filter_append, isDispatch] using hh1
  · simpa [traceOf, countRetries, List.filter_append, isRetrySent] using hh2
  · simpa [traceOf, countReceipts, List.filter_append, isReceiptSent] using hh3
  · simpa [traceOf, countAcks, List.filter_append, isAckSent] using hh4
  · simp [stateOf, bump]

def c5Msg : Msg := ⟨none, none⟩

def c5Oracles : CipherOracles :=
  ⟨fun _ content _ => if content = [1] then .ok [7, 1] else .error (),
   fun _ _ _ => .error (),
   fun bs => if bs = [7] then some c5Msg else none⟩

def c5Info : MessageInfo := ⟨⟨"1", "s.whatsapp.net"⟩, none, "ID1", none, "", 0, ""⟩

def c5c1 : Node := Node.mk "enc" [("type", .str "msg")] [1] []

def c5c2 : Node := Node.mk "enc" [("type", .str "msg")] [2] []

def c5c3 : Node := Node.mk "enc" [("type", .str "msg")] [3] []

def c5Node : Node :=
  Node.mk "message"
    [("id", .str "ID1"), ("from", .jid ⟨"1", "s.whatsapp.net"⟩), ("t", .str "1")] []
    [c5c1, c5c2, c5c3]

/-- C5 counterexample: on a concrete unit with three `enc` sub-units where the
first decrypts successfully and the second fails, the dispatcher is invoked for
ONE sub-unit, not zero as the claim states (the retry is still emitted exactly
once). -/
theorem decryptMessages_partial_dispatch_cex :
    countDispatches
      (traceOf (decryptMessages c5Oracles c7Session c7PkNode true (fun _ => 0) c5Info c5Node))
      ≠ 0 ∧
    countDispatches
      (traceOf (decryptMessages c5Oracles c7Session c7PkNode true (fun _ => 0) c5Info c5Node))
      = 1 := by decide

theorem decryptMessages_abort_after_success_witness :
    c5Node.children = [c5c1, c5c2, c5c3] ∧
    countDispatches
      (traceOf (decryptMessages c5Oracles c7Session c7PkNode true (fun _ => 0) c5Info c5Node))
      = 1 ∧
    countRetries
      (traceOf (decryptMessages c5Oracles c7Session c7PkNode true (fun _ => 0) c5Info c5Node))
      = 1 :=
  ⟨rfl,
   (decryptMessages_abort_after_success c5Oracles c7Session c7PkNode true (fun _ => 0) c5Info
     c5Node c5c1 c5c2 c5c3 [7, 1] [7] c5Msg [Effect.dispatch c5Msg] [7, 7]
     rfl rfl rfl rfl rfl rfl rfl rfl rfl rfl rfl).1,
   (decryptMessages_abort_after_success c5Oracles c7Session c7PkNode true (fun _ => 0) c5Info
     c5Node c5c1 c5c2 c5c3 [7, 1] [7] c5Msg [Effect.dispatch c5Msg] [7, 7]
     rfl rfl rfl rfl rfl rfl rfl rfl rfl rfl rfl).2.1⟩
